import Mathlib

/-!
The dual-transport application server of lambda-grpc-gateway.

A shallow embedding of `internal/config/config.go`, `internal/server/interceptor.go`
and `internal/server/server.go`, together with the parts of `cmd/lambda/main.go`
that fix the serverless configuration.

Go values are embedded as follows.

* `error` is `Option GoError`; `none` is the `nil` error.
* Pointers to library objects (`*grpc.Server`, `*runtime.ServeMux`) are `Option Handle`,
  `none` being the nil pointer; fresh objects take their handle from a counter in `World`.
* Goroutines, the unbuffered channel and the `select` of `serveWithContext` are a
  labelled transition system: an `Event` is one scheduling decision, `serveWithContext`
  fires it when it is enabled and `serveWithContextRun` folds a schedule. A history of
  calls and returned values is kept in the state, so that what was invoked, and how often,
  can be stated.
* The group of `golang.org/x/sync/errgroup` used by `Serve` is embedded by its contract:
  the first function to return a non-nil error sets the error of the group and cancels
  its context, and `Wait` returns that error once every function has returned.
-/

namespace LambdaGrpcGateway

/-! ## Errors -/

/-- The gRPC status codes of `google.golang.org/grpc/codes`, in numeric order. -/
inductive Code
  | OK | Canceled | Unknown | InvalidArgument | DeadlineExceeded | NotFound
  | AlreadyExists | PermissionDenied | ResourceExhausted | FailedPrecondition
  | Aborted | OutOfRange | Unimplemented | Internal | Unavailable | DataLoss
  | Unauthenticated
  deriving DecidableEq, Repr

/-- A Go `error` value, as far as this program can observe it.
* `plain msg`: made by `errors.New`; has no `GRPCStatus` method and wraps nothing.
* `status c msg`: has a `GRPCStatus` method returning a non-nil status of code `c`.
* `nilStatus msg`: has a `GRPCStatus` method that returns nil.
* `wrap msg inner`: made by `fmt.Errorf` with `%w`; `msg` is the formatted text. -/
inductive GoError
  | plain (msg : String)
  | status (code : Code) (msg : String)
  | nilStatus (msg : String)
  | wrap (msg : String) (inner : GoError)
  deriving DecidableEq, Repr

/-- The method `Error()` of an error value. -/
def GoError.Error : GoError → String
  | .plain m => m
  | .status _ m => m
  | .nilStatus m => m
  | .wrap m _ => m

/-- The call `fmt.Errorf(pfx + "%w", inner)`. -/
def Errorf (pfx : String) (inner : GoError) : GoError :=
  .wrap (pfx ++ inner.Error) inner

/-- The first error of the `Unwrap` chain that has a `GRPCStatus` method, with what the
method returns (`none` for a nil status): what `errors.As` finds in `status.FromError`. -/
def GoError.grpcStatus : GoError → Option (Option Code)
  | .plain _ => none
  | .status c _ => some (some c)
  | .nilStatus _ => some none
  | .wrap _ inner => inner.grpcStatus

/-- The library function `status.FromError` applied to a non-nil error: the code of the
status it returns and its `ok` flag. An error without a usable status gives a status of
code `Unknown` and `ok = false`. -/
def FromError (err : GoError) : Code × Bool :=
  match err.grpcStatus with
  | some (some c) => (c, true)
  | some none => (Code.Unknown, false)
  | none => (Code.Unknown, false)

/-! ## Configuration (`internal/config/config.go`) -/

/-- The struct `config.Config`. -/
structure Config where
  HttpNetwork : String
  HttpAddress : String
  GrpcNetwork : String
  GrpcAddress : String
  LogLevel : String
  deriving DecidableEq, Repr

/-- The configuration literal of `run` in `cmd/lambda/main.go`; the fields it leaves out
are Go zero values. -/
def lambdaConfig : Config :=
  { HttpNetwork := "", HttpAddress := "", GrpcNetwork := "unix",
    GrpcAddress := "/tmp/grpc.sock", LogLevel := "" }

/-! ## The logging interceptor (`internal/server/interceptor.go`) -/

/-- The severity levels of logrus. -/
inductive Level
  | PanicLevel | FatalLevel | ErrorLevel | WarnLevel | InfoLevel | DebugLevel | TraceLevel
  deriving DecidableEq, Repr

/-- One call made to the logger: its level, its formatted message and the error attached
with `WithError`, if any. Whether the logger then writes the entry depends on its
configured level, which is not part of the interceptor. -/
structure LogEntry where
  level : Level
  msg : String
  err : Option GoError
  deriving DecidableEq, Repr

/-- The part of `grpc.UnaryServerInfo` the interceptor reads. -/
structure UnaryServerInfo where
  FullMethod : String
  deriving DecidableEq, Repr

/-- The identity of a `context.Context`: a root context, or the context derived from
`parent` by `errgroup.WithContext`. Whether a context is cancelled changes over time and
is part of the state of the code that waits on it. -/
inductive Ctx
  | root (id : Nat)
  | derived (parent : Ctx)
  deriving DecidableEq, Repr

/-- What a unary call can change: the log and the state `σ` owned by the handler. -/
structure CallWorld (σ : Type) where
  logs : List LogEntry
  st : σ

/-- A `grpc.UnaryHandler`: it gets the context and the request, acts on the world and
returns a response and an error. -/
abbrev UnaryHandler (Req Resp σ : Type) :=
  Ctx → Req → CallWorld σ → (Resp × Option GoError) × CallWorld σ

/-- Appends one entry to the log. -/
def CallWorld.log {σ : Type} (w : CallWorld σ) (e : LogEntry) : CallWorld σ :=
  { w with logs := w.logs ++ [e] }

/-- The level chosen for the error entry: lines 25 to 32 of `interceptor.go`. -/
def errorLevel (err : GoError) : Level :=
  let lvl := Level.ErrorLevel
  let (code, ok) := FromError err
  if ok then
    if code ≠ Code.Internal ∧ code ≠ Code.Unknown then Level.DebugLevel else lvl
  else lvl

/-- The entry written by `log.Debugf("rpc call: method = %s", info.FullMethod)`. -/
def callEntry (info : UnaryServerInfo) : LogEntry :=
  { level := Level.DebugLevel, msg := "rpc call: method = " ++ info.FullMethod, err := none }

/-- The entry written by
`log.WithError(err).Logf(lvl, "rpc error: method = %s", info.FullMethod)`. -/
def errorEntry (info : UnaryServerInfo) (err : GoError) : LogEntry :=
  { level := errorLevel err, msg := "rpc error: method = " ++ info.FullMethod, err := some err }

/-- The function `LogGRPCRequest`. -/
def LogGRPCRequest {Req Resp σ : Type} (ctx : Ctx) (req : Req) (info : UnaryServerInfo)
    (handler : UnaryHandler Req Resp σ) (w : CallWorld σ) :
    (Resp × Option GoError) × CallWorld σ :=
  let ((resp, err), w1) := handler ctx req w
  let w2 := w1.log (callEntry info)
  match err with
  | some e => ((resp, err), w2.log (errorEntry info e))
  | none => ((resp, err), w2)

/-! ## The application server (`internal/server/server.go`) -/

/-- The identity of an object behind a pointer. -/
abbrev Handle := Nat

/-- The two transports. -/
inductive Kind
  | grpc | http
  deriving DecidableEq, Repr

/-- The services registered on the gRPC server by `Init`. -/
inductive Service
  | reflection | ping
  deriving DecidableEq, Repr

/-- The `http.Server` built by `Init`: its identity and the two fields that are set. The
timeout is in seconds. -/
structure HttpServer where
  id : Handle
  Handler : Option Handle
  ReadHeaderTimeout : Nat
  deriving DecidableEq, Repr

/-- The struct `ApplicationServer`. -/
structure ApplicationServer where
  Mux : Option Handle
  cfg : Config
  grpcServer : Option Handle
  httpServer : Option HttpServer
  pingService : Option Handle
  initialized : Bool
  deriving DecidableEq, Repr

/-- What `Init` touches outside the struct: the allocator, the services registered on
gRPC servers, the calls made to `RegisterPingServiceHandlerFromEndpoint` (gateway mux and
endpoint) and whether the gRPC library logger was replaced by the discarding one. -/
structure World where
  next : Handle
  services : List (Handle × Service)
  dials : List (Handle × String)
  grpcLogDiscarded : Bool
  deriving DecidableEq, Repr

/-- The function `NewApplicationServer`. -/
def NewApplicationServer (cfg : Config) : ApplicationServer :=
  { Mux := none, cfg := cfg, grpcServer := none, httpServer := none, pingService := none,
    initialized := false }

/-- Lines 82 to 85 of `server.go`: the endpoint handed to the gateway registration. -/
def dialEndpoint (cfg : Config) : String :=
  let endpoint := cfg.GrpcAddress
  if cfg.GrpcNetwork = "unix" then "unix://" ++ cfg.GrpcAddress else endpoint

/-- The error of the guard of `Init`. -/
def errAlreadyInitialized : GoError := .plain "application is already initialized"

/-- The error of the guards of `Serve` and `ServeHttp`. -/
def errNotInitialized : GoError := .plain "application is not initialized"

/-- The method `Init`. The generated function `RegisterPingServiceHandlerFromEndpoint` is
not part of the sources; `register ctx mux endpoint` stands for its result. -/
def Init (register : Ctx → Handle → String → Option GoError) (ctx : Ctx)
    (app : ApplicationServer) (w : World) : Option GoError × ApplicationServer × World :=
  if app.initialized then (some errAlreadyInitialized, app, w)
  else
    -- app.grpcServer = grpc.NewServer(grpc.UnaryInterceptor(LogGRPCRequest))
    let g := w.next
    let app := { app with grpcServer := some g }
    -- reflection.Register(app.grpcServer)
    let w := { w with next := g + 1, services := w.services ++ [(g, Service.reflection)] }
    -- examplev1.RegisterPingServiceServer(app.grpcServer, ping.NewPingService())
    let w := { w with next := w.next + 1, services := w.services ++ [(g, Service.ping)] }
    -- app.Mux = runtime.NewServeMux(...)
    let m := w.next
    let app := { app with Mux := some m }
    let w := { w with next := m + 1 }
    let endpoint := dialEndpoint app.cfg
    let w := { w with dials := w.dials ++ [(m, endpoint)] }
    match register ctx m endpoint with
    | some err => (some (Errorf "error registering ping service handler: " err), app, w)
    | none =>
      -- app.httpServer = &http.Server{Handler: app.Mux, ReadHeaderTimeout: 1 * time.Minute}
      let h := w.next
      let app := { app with
        httpServer := some { id := h, Handler := app.Mux, ReadHeaderTimeout := 60 } }
      let w := { w with next := h + 1 }
      -- grpclog.SetLoggerV2(grpclog.NewLoggerV2(io.Discard, io.Discard, io.Discard))
      let w := { w with grpcLogDiscarded := true }
      let app := { app with initialized := true }
      (none, app, w)

/-! ### Serving -/

/-- A bound listener, as far as the server reads it: the text of `lis.Addr()`. -/
structure Listener where
  addr : String
  deriving DecidableEq, Repr

/-- The two function arguments of `serveWithContext`. -/
inductive Role
  | serve | stop
  deriving DecidableEq, Repr

/-- What the body of a serve or stop closure does that can be observed from outside. -/
inductive Effect
  | log (level : Level) (msg : String)
  | grpcServe (srv : Handle) (lis : Listener)
  | grpcGracefulStop (srv : Handle)
  | httpServe (srv : Handle) (lis : Listener)
  | httpShutdown (srv : Handle) (ctx : Ctx)
  deriving DecidableEq, Repr

/-- One entry of the history of a call of `serveWithContext`: it invoked one of its two
arguments with a context, the body of an argument had an effect, or an argument returned
a value. -/
inductive Obs
  | invoke (role : Role) (ctx : Ctx)
  | effect (e : Effect)
  | result (role : Role) (r : Option GoError)
  deriving DecidableEq, Repr

/-- One run of a `func(context.Context) error` body: either it panics after some effects,
or it performs its effects, the last of which is a blocking library call, and returns
`ret x` when that call gives `x`. -/
inductive OpRun
  | panic (pre : List Effect)
  | call (pre : List Effect) (ret : Option GoError → Option GoError)

/-- A `func(context.Context) error` value. -/
abbrev Op := Ctx → OpRun

/-- The serve closure of `ServeGrpc` (lines 159 to 162). A nil listener panics at
`lis.Addr()`, a nil server inside `Serve`. -/
def grpcServeOp (app : ApplicationServer) (lis : Option Listener) : Op := fun _ =>
  match lis with
  | none => .panic []
  | some l =>
    let pre := [Effect.log Level.InfoLevel ("gRPC server listening at " ++ l.addr)]
    match app.grpcServer with
    | none => .panic pre
    | some srv => .call (pre ++ [Effect.grpcServe srv l]) id

/-- The stop closure of `ServeGrpc` (lines 163 to 167): `GracefulStop` gives no result
and the closure returns nil. -/
def grpcStopOp (app : ApplicationServer) : Op := fun _ =>
  let pre := [Effect.log Level.InfoLevel "Shutting down gRPC server"]
  match app.grpcServer with
  | none => .panic pre
  | some srv => .call (pre ++ [Effect.grpcGracefulStop srv]) (fun _ => none)

/-- The serve closure of `ServeHttp` (lines 141 to 144). The server is nil only on a
struct that did not come out of `Init`; the guard of `ServeHttp` excludes the others. -/
def httpServeOp (app : ApplicationServer) (lis : Option Listener) : Op := fun _ =>
  match lis with
  | none => .panic []
  | some l =>
    let pre := [Effect.log Level.InfoLevel ("HTTP server listening at " ++ l.addr)]
    match app.httpServer with
    | none => .panic pre
    | some srv => .call (pre ++ [Effect.httpServe srv.id l]) id

/-- The stop closure of `ServeHttp` (lines 145 to 148); it shuts down with the context it
is called with. -/
def httpStopOp (app : ApplicationServer) : Op := fun ctx =>
  let pre := [Effect.log Level.InfoLevel "Shutting down HTTP server"]
  match app.httpServer with
  | none => .panic pre
  | some srv => .call (pre ++ [Effect.httpShutdown srv.id ctx]) id

/-- What a call of `ServeGrpc` or `ServeHttp` does: it returns `e` at once, or it returns
the result of `serveWithContext(ctx, serve, stop)`. -/
inductive ServeCall
  | fail (e : GoError)
  | race (ctx : Ctx) (serve stop : Op)

/-- The method `ServeHttp`. -/
def ServeHttp (app : ApplicationServer) (ctx : Ctx) (lis : Option Listener) : ServeCall :=
  if !app.initialized then .fail errNotInitialized
  else .race ctx (httpServeOp app lis) (httpStopOp app)

/-- The method `ServeGrpc`. -/
def ServeGrpc (app : ApplicationServer) (ctx : Ctx) (lis : Option Listener) : ServeCall :=
  .race ctx (grpcServeOp app lis) (grpcStopOp app)

/-! ### `serveWithContext` as a transition system -/

/-- The goroutine that called `serveWithContext`: blocked in the `select`, inside
`stop(ctx)`, returned with a value, or panicked. -/
inductive MainSt
  | selecting
  | stopping
  | returned (r : Option GoError)
  | panicked
  deriving DecidableEq, Repr

/-- The goroutine `go func() { errChan <- serve(ctx) }()`: not yet scheduled, inside
`serve(ctx)`, blocked on the send of `e` to the unbuffered channel, finished, or
panicked. -/
inductive TaskSt
  | spawned
  | serving
  | sending (e : Option GoError)
  | finished
  | panicked
  deriving DecidableEq, Repr

/-- One scheduling decision.
* `cancel`: the owner of the context cancels it.
* `taskStart`: the goroutine runs `serve(ctx)` up to its blocking call.
* `serveReturns x`: that call returns `x`; the goroutine reaches the channel send.
* `recv`: the `select` takes `case err := <-errChan`.
* `ctxDone`: the `select` takes `case <-ctx.Done()` and runs `stop(ctx)` up to its call.
* `stopReturns x`: the call made by `stop` returns `x`. -/
inductive Event
  | cancel
  | taskStart
  | serveReturns (x : Option GoError)
  | recv
  | ctxDone
  | stopReturns (x : Option GoError)
  deriving DecidableEq, Repr

/-- The state of one call of `serveWithContext`. -/
structure SwcState where
  cancelled : Bool
  main : MainSt
  task : TaskSt
  trace : List Obs
  deriving DecidableEq, Repr

/-- The state right after `go func() ...` (line 173), the caller entering the `select`. -/
def SwcState.init (cancelled : Bool) : SwcState :=
  { cancelled := cancelled, main := .selecting, task := .spawned, trace := [] }

/-- A panic in either goroutine ends the process. -/
def SwcState.crashed (s : SwcState) : Bool :=
  s.main = .panicked || s.task = .panicked

/-- The history entries of one invocation: the call and the effects of the body. -/
def invocation (role : Role) (ctx : Ctx) (pre : List Effect) : List Obs :=
  Obs.invoke role ctx :: pre.map Obs.effect

/-- The transition function of `serveWithContext(ctx, serve, stop)`; `none` when the
event is not enabled. -/
def serveWithContext (ctx : Ctx) (serve stop : Op) (ev : Event) (s : SwcState) :
    Option SwcState :=
  if s.crashed then none
  else
    match ev with
    | .cancel => some { s with cancelled := true }
    | .taskStart =>
      match s.task with
      | .spawned =>
        match serve ctx with
        | .panic pre =>
          some { s with task := .panicked, trace := s.trace ++ invocation .serve ctx pre }
        | .call pre _ =>
          some { s with task := .serving, trace := s.trace ++ invocation .serve ctx pre }
      | _ => none
    | .serveReturns x =>
      match s.task, serve ctx with
      | .serving, .call _ ret =>
        some { s with task := .sending (ret x), trace := s.trace ++ [Obs.result .serve (ret x)] }
      | _, _ => none
    | .recv =>
      match s.main, s.task with
      | .selecting, .sending e => some { s with main := .returned e, task := .finished }
      | _, _ => none
    | .ctxDone =>
      match s.main with
      | .selecting =>
        if s.cancelled then
          match stop ctx with
          | .panic pre =>
            some { s with main := .panicked, trace := s.trace ++ invocation .stop ctx pre }
          | .call pre _ =>
            some { s with main := .stopping, trace := s.trace ++ invocation .stop ctx pre }
        else none
      | _ => none
    | .stopReturns x =>
      match s.main, stop ctx with
      | .stopping, .call _ ret =>
        some { s with main := .returned (ret x), trace := s.trace ++ [Obs.result .stop (ret x)] }
      | _, _ => none

/-- Runs a schedule; `none` as soon as an event is not enabled. -/
def serveWithContextRun (ctx : Ctx) (serve stop : Op) :
    List Event → SwcState → Option SwcState
  | [], s => some s
  | ev :: evs, s =>
    (serveWithContext ctx serve stop ev s).bind (serveWithContextRun ctx serve stop evs)

/-- The contexts of the invocations of `stop` in a history, in order. -/
def stopContexts : List Obs → List Ctx
  | [] => []
  | .invoke .stop c :: rest => c :: stopContexts rest
  | .invoke .serve _ :: rest => stopContexts rest
  | .effect _ :: rest => stopContexts rest
  | .result _ _ :: rest => stopContexts rest

/-- The contexts with which `stop` was invoked, in order. -/
def stopInvocations (s : SwcState) : List Ctx :=
  stopContexts s.trace

/-- The transport calls `Serve`, `GracefulStop` and `Shutdown` made so far. -/
def transportCalls (s : SwcState) : List Effect :=
  s.trace.filterMap (fun o => match o with
    | .effect (.log _ _) => none
    | .effect e => some e
    | _ => none)

/-- The state in which a call of `ServeGrpc` or `ServeHttp` starts: a failed guard has
returned already and has no goroutine behind it. -/
def ServeCall.init (c : ServeCall) (cancelled : Bool) : SwcState :=
  match c with
  | .fail e =>
    { cancelled := cancelled, main := .returned (some e), task := .finished, trace := [] }
  | .race _ _ _ => SwcState.init cancelled

/-- The transitions of a call of `ServeGrpc` or `ServeHttp`. -/
def ServeCall.step (c : ServeCall) (ev : Event) (s : SwcState) : Option SwcState :=
  match c with
  | .fail _ =>
    match ev with
    | .cancel => some { s with cancelled := true }
    | _ => none
  | .race ctx serve stop => serveWithContext ctx serve stop ev s

/-! ### `Serve`: the two loops under an `errgroup.Group` -/

/-- The state of a call of `Serve` after its guard.
* `cancelled`: the context of the group is done (its parent was cancelled or the group
  cancelled it).
* `grpc`, `http`: the two functions given to `g.Go`; `none` until the goroutine is
  scheduled and calls `ServeGrpc` or `ServeHttp`. The flag `cancelled` inside a loop is
  what the loop saw at its last move; `serveStep` refreshes it from the group before
  every move of the loop.
* `completions`: the values returned by the two functions, in the order in which the
  group received them.
* `err`: the field `g.err`, written once by `g.errOnce`.
* `result`: the value returned by `g.Wait()`, which is the value returned by `Serve`. -/
structure ServeState where
  cancelled : Bool
  grpc : Option SwcState
  http : Option SwcState
  completions : List (Kind × Option GoError)
  err : Option GoError
  result : Option (Option GoError)
  logs : List Effect
  deriving DecidableEq, Repr

/-- One scheduling decision during `Serve`: the caller cancels its context, a group
goroutine is scheduled, one of the two loops moves, or `g.Wait()` returns. -/
inductive ServeEvent
  | cancel
  | start (k : Kind)
  | loop (k : Kind) (ev : Event)
  | wait
  deriving DecidableEq, Repr

/-- What a call of `Serve` does: it returns `e` at once, or it gives the two functions
`calls` to `g.Go`, runs the group from the state `s` and returns what `g.Wait()`
returns. -/
inductive ServeStart
  | fail (e : GoError)
  | group (calls : Kind → ServeCall) (s : ServeState)

/-- The function given to `g.Go` for transport `k` (lines 124 and 125), called with the
context of the group. -/
def loopCall (app : ApplicationServer) (ctx : Ctx) (grpcListener httpListener : Option Listener) :
    Kind → ServeCall
  | .grpc => ServeGrpc app (Ctx.derived ctx) grpcListener
  | .http => ServeHttp app (Ctx.derived ctx) httpListener

/-- The method `Serve`, up to `g.Wait()`; `cancelled` tells whether `ctx` is done already
when `Serve` is called. -/
def Serve (app : ApplicationServer) (ctx : Ctx) (grpcListener httpListener : Option Listener)
    (cancelled : Bool) : ServeStart :=
  if !app.initialized then .fail errNotInitialized
  else .group (loopCall app ctx grpcListener httpListener)
    { cancelled := cancelled, grpc := none, http := none, completions := [], err := none,
      result := none,
      logs := [Effect.log Level.InfoLevel "Application server started"] }

/-- The loop of transport `k`. -/
def ServeState.get (st : ServeState) : Kind → Option SwcState
  | .grpc => st.grpc
  | .http => st.http

/-- Replaces the loop of transport `k`. -/
def ServeState.set (st : ServeState) (k : Kind) (s : SwcState) : ServeState :=
  match k with
  | .grpc => { st with grpc := some s }
  | .http => { st with http := some s }

/-- The value a loop has returned, if it has. -/
def returnedValue : Option SwcState → Option (Option GoError)
  | some { main := .returned r, .. } => some r
  | _ => none

/-- A panic in any goroutine ends the process. -/
def ServeState.crashed (st : ServeState) : Bool :=
  (st.grpc.map SwcState.crashed).getD false || (st.http.map SwcState.crashed).getD false

/-- The group goroutine after its function returned `r`: the body of `g.Go` in
`errgroup`, `if err := f(); err != nil { g.errOnce.Do(func() { g.err = err; g.cancel() }) }`.
The return of `f` is seen by nobody but this goroutine, so both happen in one step. -/
def groupDone (k : Kind) (r : Option GoError) (st : ServeState) : ServeState :=
  let st := { st with completions := st.completions ++ [(k, r)] }
  match r, st.err with
  | some e, none => { st with err := some e, cancelled := true }
  | _, _ => st

/-- Stores the new state of loop `k` and, when the loop has just returned, lets the group
see the value. -/
def settle (k : Kind) (before : Option SwcState) (after : SwcState) (st : ServeState) :
    ServeState :=
  let st := st.set k after
  match returnedValue before, after.main with
  | none, .returned r => groupDone k r st
  | _, _ => st

/-- The transition function of the group started by `Serve`, `calls` being the two
functions given to `g.Go`; `none` when the event is not enabled. `g.Wait()` returns once
both functions have returned; it cancels the context of the group and gives `g.err`. -/
def serveStep (calls : Kind → ServeCall) (ev : ServeEvent) (st : ServeState) :
    Option ServeState :=
  if st.crashed then none
  else
    match ev with
    | .cancel => some { st with cancelled := true }
    | .start k =>
      match st.get k with
      | some _ => none
      | none => some (settle k none ((calls k).init st.cancelled) st)
    | .loop k ev =>
      match st.get k, ev with
      | none, _ => none
      | some _, .cancel => none
      | some s, ev =>
        match (calls k).step ev { s with cancelled := st.cancelled } with
        | none => none
        | some s1 => some (settle k (some s) s1 st)
    | .wait =>
      match st.result, returnedValue st.grpc, returnedValue st.http with
      | none, some _, some _ => some { st with result := some st.err, cancelled := true }
      | _, _, _ => none

/-- Runs a schedule of the group; `none` as soon as an event is not enabled. -/
def serveRun (calls : Kind → ServeCall) : List ServeEvent → ServeState → Option ServeState
  | [], st => some st
  | ev :: evs, st => (serveStep calls ev st).bind (serveRun calls evs)

/-- The first non-nil error of a list of returned values. -/
def firstError : List (Kind × Option GoError) → Option GoError
  | [] => none
  | (_, some e) :: _ => some e
  | (_, none) :: rest => firstError rest

/-! ## Invariants -/

/-- The invariant of `serveWithContext(ctx, serve, stop)`: a value being sent was
returned by `serve`; `stop` was not invoked while the caller is in the `select`; it was
invoked once, with `ctx`, after the caller took the cancellation branch; and a value
returned to the caller is either the one received from the channel, `stop` never having
been invoked, or the one `stop` returned, nothing having been received. -/
def SwcInv (ctx : Ctx) (s : SwcState) : Prop :=
  (∀ e, s.task = .sending e → Obs.result .serve e ∈ s.trace) ∧
  (match s.main with
    | .selecting => stopInvocations s = [] ∧ s.task ≠ .finished
    | .stopping => stopInvocations s = [ctx] ∧ s.task ≠ .finished ∧ s.cancelled = true
    | .returned r =>
      (stopInvocations s = [] ∧ s.task = .finished ∧ Obs.result .serve r ∈ s.trace) ∨
      (stopInvocations s = [ctx] ∧ s.task ≠ .finished ∧ Obs.result .stop r ∈ s.trace ∧
        s.cancelled = true)
    | .panicked => True)

/-- The invariant of `Serve`: `g.err` is the first non-nil error among the values
returned so far, in the order the group received them; once there is one, the context of
the group is cancelled; the values received are exactly those of the loops that have
returned, each loop at most once; and a value returned by `Serve` is `g.err`, both loops
having returned. -/
structure ServeInv (st : ServeState) : Prop where
  err_eq : st.err = firstError st.completions
  cancelled_of_err : st.err ≠ none → st.cancelled = true
  mem_iff : ∀ k r, (k, r) ∈ st.completions ↔ returnedValue (st.get k) = some r
  nodup : (st.completions.map Prod.fst).Nodup
  result_ok : ∀ r, st.result = some r →
    r = st.err ∧ (returnedValue st.grpc).isSome = true ∧ (returnedValue st.http).isSome = true

/-! ## Concrete inputs used below -/

/-- A registration that fails: the gateway cannot reach the endpoint. -/
def registerFails : Ctx → Handle → String → Option GoError :=
  fun _ _ _ => some (.plain "dial failed")

/-- A registration that succeeds. -/
def registerOk : Ctx → Handle → String → Option GoError :=
  fun _ _ _ => none

/-- The world before anything was allocated. -/
def World.empty : World :=
  { next := 0, services := [], dials := [], grpcLogDiscarded := false }

/-- The serverless server as constructed, `Init` never called. -/
def freshApp : ApplicationServer := NewApplicationServer lambdaConfig

/-- The server left by `Init` on a fresh server when the gateway registration fails with
`err`. -/
def afterFailedInit (cfg : Config) (ctx : Ctx) (w : World) (err : GoError) : ApplicationServer :=
  (Init (fun _ _ _ => some err) ctx (NewApplicationServer cfg) w).2.1

/-- What is looked at in a state of a loop: the caller, the goroutine and the transport
calls made. -/
def SwcState.summary (s : SwcState) : MainSt × TaskSt × List Effect :=
  (s.main, s.task, transportCalls s)

/-- The first `Init` on `freshApp`, the gateway registration failing. -/
def failedInit : Option GoError × ApplicationServer × World :=
  Init registerFails (Ctx.root 0) freshApp World.empty

/-- The state of a call that was refused by the guard: it has returned the "not
initialized" error, has no goroutine and an empty history. -/
def refused (cancelled : Bool) : SwcState :=
  { cancelled := cancelled, main := .returned (some errNotInitialized), task := .finished,
    trace := [] }

/-- A handler that counts its calls and fails with `NotFound`. -/
def notFoundHandler : UnaryHandler String String Nat :=
  fun _ _ w => (("", some (.status Code.NotFound "no such thing")), { w with st := w.st + 1 })

/-- The local-channel listener of the serverless entrypoint. -/
def sockListener : Listener := { addr := "/tmp/grpc.sock" }

/-- The serverless server after a successful `Init`. -/
def initializedApp : ApplicationServer :=
  (Init registerOk (Ctx.root 0) (NewApplicationServer lambdaConfig) World.empty).2.1

/-- The history of the gRPC loop of `initializedApp` once its context was cancelled while
it served and `GracefulStop` returned. -/
def stoppedTrace : List Obs :=
  [Obs.invoke .serve (Ctx.root 0),
   Obs.effect (Effect.log Level.InfoLevel "gRPC server listening at /tmp/grpc.sock"),
   Obs.effect (Effect.grpcServe 0 sockListener),
   Obs.invoke .stop (Ctx.root 0),
   Obs.effect (Effect.log Level.InfoLevel "Shutting down gRPC server"),
   Obs.effect (Effect.grpcGracefulStop 0),
   Obs.result .stop none]

/-- The gRPC loop after the cancellation branch returned nil; `Serve` is still running in
the goroutine. -/
def stoppedGrpc : SwcState :=
  { cancelled := true, main := .returned none, task := .serving, trace := stoppedTrace }

/-- The gRPC loop after `Serve` returned nil in the goroutine as well. -/
def leakedGrpc : SwcState :=
  { cancelled := true, main := .returned none, task := .sending none,
    trace := stoppedTrace ++ [Obs.result .serve none] }

/-- The state of `Serve` on `initializedApp` after its guard, the context not cancelled. -/
def serveStart : ServeState :=
  { cancelled := false, grpc := none, http := none, completions := [], err := none,
    result := none, logs := [Effect.log Level.InfoLevel "Application server started"] }

/-- The HTTP listener of the standalone entrypoint. -/
def httpListener8080 : Listener := { addr := "0.0.0.0:8080" }

/-- A schedule in which the HTTP loop fails on its own while the gRPC loop serves: the
group cancels the shared context, the gRPC loop stops its server and returns nil, and
`g.Wait()` returns. -/
def failingHttpSchedule : List ServeEvent :=
  [.start .grpc, .start .http, .loop .grpc .taskStart, .loop .http .taskStart,
   .loop .http (.serveReturns (some (.plain "use of closed network connection"))),
   .loop .http .recv, .loop .grpc .ctxDone, .loop .grpc (.stopReturns none), .wait]

/-- The state reached by `failingHttpSchedule`. -/
def failingHttpFinal : ServeState :=
  { cancelled := true,
    grpc := some
      { cancelled := true, main := .returned none, task := .serving,
        trace :=
          [Obs.invoke .serve (Ctx.derived (Ctx.root 0)),
           Obs.effect (Effect.log Level.InfoLevel "gRPC server listening at /tmp/grpc.sock"),
           Obs.effect (Effect.grpcServe 0 sockListener),
           Obs.invoke .stop (Ctx.derived (Ctx.root 0)),
           Obs.effect (Effect.log Level.InfoLevel "Shutting down gRPC server"),
           Obs.effect (Effect.grpcGracefulStop 0),
           Obs.result .stop none] },
    http := some
      { cancelled := false,
        main := .returned (some (.plain "use of closed network connection")),
        task := .finished,
        trace :=
          [Obs.invoke .serve (Ctx.derived (Ctx.root 0)),
           Obs.effect (Effect.log Level.InfoLevel "HTTP server listening at 0.0.0.0:8080"),
           Obs.effect (Effect.httpServe 3 httpListener8080),
           Obs.result .serve (some (.plain "use of closed network connection"))] },
    completions := [(.http, some (.plain "use of closed network connection")), (.grpc, none)],
    err := some (.plain "use of closed network connection"),
    result := some (some (.plain "use of closed network connection")),
    logs := [Effect.log Level.InfoLevel "Application server started"] }

/-! # Theorems -/

/-! ## The logging interceptor -/

/-- When `status.FromError` reports `ok = false` the code it gives is `Unknown`. -/
theorem FromError_not_ok (e : GoError) (c : Code) (h : FromError e = (c, false)) :
    c = Code.Unknown := by
  unfold FromError at h
  split at h <;> simp_all

/-- The level of the error entry, by status code. -/
theorem errorLevel_spec (e : GoError) :
    (errorLevel e = Level.ErrorLevel ↔
      (FromError e).1 = Code.Internal ∨ (FromError e).1 = Code.Unknown) ∧
    (¬ ((FromError e).1 = Code.Internal ∨ (FromError e).1 = Code.Unknown) →
      errorLevel e = Level.DebugLevel) := by
  unfold errorLevel
  rcases hfe : FromError e with ⟨c, ok⟩
  cases ok with
  | false =>
    have hc := FromError_not_ok e c hfe
    subst hc
    simp
  | true => cases c <;> simp

/-- C6: `LogGRPCRequest` returns exactly the response and the error the handler
returned for the same context and request, and the state owned by the handler is the one
left by that single call. -/
theorem LogGRPCRequest_returns_handler_result {Req Resp σ : Type} (ctx : Ctx) (req : Req)
    (info : UnaryServerInfo) (handler : UnaryHandler Req Resp σ) (w : CallWorld σ) :
    (LogGRPCRequest ctx req info handler w).1 = (handler ctx req w).1 ∧
    (LogGRPCRequest ctx req info handler w).2.st = (handler ctx req w).2.st := by
  unfold LogGRPCRequest
  rcases hh : handler ctx req w with ⟨⟨resp, err⟩, w1⟩
  cases err <;> simp [CallWorld.log]

/-- C10: the log after `LogGRPCRequest` is the log as the handler left it, followed by
the method-name entry alone when the handler's error is nil, and by the method-name entry
and one error entry, carrying the method name and the error, when it is not. -/
theorem LogGRPCRequest_entries {Req Resp σ : Type} (ctx : Ctx) (req : Req)
    (info : UnaryServerInfo) (handler : UnaryHandler Req Resp σ) (w : CallWorld σ) :
    ∃ emitted : List LogEntry,
      (LogGRPCRequest ctx req info handler w).2.logs = (handler ctx req w).2.logs ++ emitted ∧
      emitted.head? =
        some ⟨Level.DebugLevel, "rpc call: method = " ++ info.FullMethod, none⟩ ∧
      ((handler ctx req w).1.2 = none → emitted.length = 1) ∧
      (∀ e, (handler ctx req w).1.2 = some e →
        ∃ lvl,
          emitted.tail = [⟨lvl, "rpc error: method = " ++ info.FullMethod, some e⟩]) := by
  unfold LogGRPCRequest
  rcases hh : handler ctx req w with ⟨⟨resp, err⟩, w1⟩
  cases err with
  | none => exact ⟨[callEntry info], by simp [CallWorld.log, callEntry]⟩
  | some e =>
    exact ⟨[callEntry info, errorEntry info e], by simp [CallWorld.log, callEntry, errorEntry]⟩

/-- C5: when the handler returns the non-nil error `e`, the error entry is the last entry
of the log, it carries `e`, its level is the error level exactly when the status code of
`e` is `Internal` or `Unknown`, and it is the debug level for every other code. -/
theorem LogGRPCRequest_error_severity {Req Resp σ : Type} (ctx : Ctx) (req : Req)
    (info : UnaryServerInfo) (handler : UnaryHandler Req Resp σ) (w : CallWorld σ)
    (e : GoError) (h : (handler ctx req w).1.2 = some e) :
    ∃ entry : LogEntry,
      (LogGRPCRequest ctx req info handler w).2.logs =
        (handler ctx req w).2.logs ++ [callEntry info, entry] ∧
      entry.err = some e ∧
      (entry.level = Level.ErrorLevel ↔
        (FromError e).1 = Code.Internal ∨ (FromError e).1 = Code.Unknown) ∧
      (¬ ((FromError e).1 = Code.Internal ∨ (FromError e).1 = Code.Unknown) →
        entry.level = Level.DebugLevel) := by
  refine ⟨errorEntry info e, ?_, rfl, ?_, ?_⟩
  · unfold LogGRPCRequest
    rcases hh : handler ctx req w with ⟨⟨resp, err⟩, w1⟩
    rw [hh] at h
    simp only at h
    subst h
    simp [CallWorld.log]
  · exact (errorLevel_spec e).1
  · exact (errorLevel_spec e).2

/-- Witness of C5: a handler failing with `NotFound` gets a debug entry. -/
theorem LogGRPCRequest_error_severity_witness :
    ∃ entry : LogEntry,
      (LogGRPCRequest (Ctx.root 0) "ping" ⟨"/example.v1.PingService/Ping"⟩ notFoundHandler
          ⟨[], 0⟩).2.logs =
        (notFoundHandler (Ctx.root 0) "ping" ⟨[], 0⟩).2.logs ++
          [callEntry ⟨"/example.v1.PingService/Ping"⟩, entry] ∧
      entry.err = some (GoError.status Code.NotFound "no such thing") ∧
      (entry.level = Level.ErrorLevel ↔
        (FromError (GoError.status Code.NotFound "no such thing")).1 = Code.Internal ∨
        (FromError (GoError.status Code.NotFound "no such thing")).1 = Code.Unknown) ∧
      (¬ ((FromError (GoError.status Code.NotFound "no such thing")).1 = Code.Internal ∨
          (FromError (GoError.status Code.NotFound "no such thing")).1 = Code.Unknown) →
        entry.level = Level.DebugLevel) :=
  LogGRPCRequest_error_severity (Ctx.root 0) "ping" ⟨"/example.v1.PingService/Ping"⟩
    notFoundHandler ⟨[], 0⟩ (GoError.status Code.NotFound "no such thing") rfl

/-! ## `Init` -/

/-- C8: `Init` on a fresh server hands to the gateway registration the new mux and the
endpoint `"unix://"` followed by `GrpcAddress` when `GrpcNetwork` is `"unix"` and
`GrpcAddress` itself otherwise: whatever the registration is, the error `Init` returns is
the answer of the registration at exactly that context, mux and endpoint, wrapped, and
the instance is initialized exactly when that answer is nil. The registration is called
once, with that mux and endpoint. For the serverless configuration the endpoint is
`"unix:///tmp/grpc.sock"`. -/
theorem Init_dial_endpoint (register : Ctx → Handle → String → Option GoError) (ctx : Ctx)
    (cfg : Config) (w : World) :
    (Init register ctx (NewApplicationServer cfg) w).1 =
      (register ctx (w.next + 2)
        (if cfg.GrpcNetwork = "unix" then "unix://" ++ cfg.GrpcAddress
          else cfg.GrpcAddress)).map (Errorf "error registering ping service handler: ") ∧
    (Init register ctx (NewApplicationServer cfg) w).2.1.initialized =
      (register ctx (w.next + 2)
        (if cfg.GrpcNetwork = "unix" then "unix://" ++ cfg.GrpcAddress
          else cfg.GrpcAddress)).isNone ∧
    (Init register ctx (NewApplicationServer lambdaConfig) w).1 =
      (register ctx (w.next + 2) "unix:///tmp/grpc.sock").map
        (Errorf "error registering ping service handler: ") ∧
    (Init register ctx (NewApplicationServer lambdaConfig) w).2.1.initialized =
      (register ctx (w.next + 2) "unix:///tmp/grpc.sock").isNone ∧
    (Init register ctx (NewApplicationServer cfg) w).2.2.dials =
      w.dials ++ [(w.next + 2,
        if cfg.GrpcNetwork = "unix" then "unix://" ++ cfg.GrpcAddress else cfg.GrpcAddress)] ∧
    (Init register ctx (NewApplicationServer cfg) w).2.1.Mux = some (w.next + 2) ∧
    (Init register ctx (NewApplicationServer lambdaConfig) w).2.2.dials =
      w.dials ++ [(w.next + 2, "unix:///tmp/grpc.sock")] := by
  have hep : dialEndpoint lambdaConfig = "unix:///tmp/grpc.sock" := by decide
  refine ⟨?_, ?_, ?_, ?_, ?_, ?_, ?_⟩
  · simp only [Init, NewApplicationServer, dialEndpoint]
    cases register ctx (w.next + 1 + 1)
      (if cfg.GrpcNetwork = "unix" then "unix://" ++ cfg.GrpcAddress else cfg.GrpcAddress) <;>
      simp
  · simp only [Init, NewApplicationServer, dialEndpoint]
    cases register ctx (w.next + 1 + 1)
      (if cfg.GrpcNetwork = "unix" then "unix://" ++ cfg.GrpcAddress else cfg.GrpcAddress) <;>
      simp
  · simp only [Init, NewApplicationServer, hep]
    cases register ctx (w.next + 1 + 1) "unix:///tmp/grpc.sock" <;> simp
  · simp only [Init, NewApplicationServer, hep]
    cases register ctx (w.next + 1 + 1) "unix:///tmp/grpc.sock" <;> simp
  · simp only [Init, NewApplicationServer, dialEndpoint]
    cases register ctx (w.next + 1 + 1)
      (if cfg.GrpcNetwork = "unix" then "unix://" ++ cfg.GrpcAddress else cfg.GrpcAddress) <;>
      simp
  · simp only [Init, NewApplicationServer, dialEndpoint]
    cases register ctx (w.next + 1 + 1)
      (if cfg.GrpcNetwork = "unix" then "unix://" ++ cfg.GrpcAddress else cfg.GrpcAddress) <;>
      simp
  · simp only [Init, NewApplicationServer, hep]
    cases register ctx (w.next + 1 + 1) "unix:///tmp/grpc.sock" <;> simp

/-- C2, as stated, fails: on a fresh server whose first `Init` fails at the gateway
registration, the second `Init` does not return the "already initialized" error; it runs
again, returns the registration error and replaces the gRPC server and the mux. -/
theorem Init_twice_after_failure_runs_again :
    failedInit.1 =
      some (Errorf "error registering ping service handler: " (.plain "dial failed")) ∧
    (Init registerFails (Ctx.root 0) failedInit.2.1 failedInit.2.2).1 ≠
      some errAlreadyInitialized ∧
    (Init registerFails (Ctx.root 0) failedInit.2.1 failedInit.2.2).1 =
      some (Errorf "error registering ping service handler: " (.plain "dial failed")) ∧
    failedInit.2.1.grpcServer = some 0 ∧
    (Init registerFails (Ctx.root 0) failedInit.2.1 failedInit.2.2).2.1.grpcServer = some 3 ∧
    failedInit.2.1.Mux = some 2 ∧
    (Init registerFails (Ctx.root 0) failedInit.2.1 failedInit.2.2).2.1.Mux = some 5 ∧
    (Init registerFails (Ctx.root 0) failedInit.2.1 failedInit.2.2).2.1 ≠ failedInit.2.1 := by
  decide

/-- C2, amended: when the first `Init` leaves the instance initialized, a second `Init`,
whatever its context and whatever the registration would answer, returns the "already
initialized" error and changes neither a field of the instance nor the world. -/
theorem Init_twice_after_success (register register2 : Ctx → Handle → String → Option GoError)
    (ctx ctx2 : Ctx) (app : ApplicationServer) (w : World)
    (h : (Init register ctx app w).2.1.initialized = true) :
    Init register2 ctx2 (Init register ctx app w).2.1 (Init register ctx app w).2.2 =
      (some (GoError.plain "application is already initialized"),
        (Init register ctx app w).2.1, (Init register ctx app w).2.2) := by
  generalize Init register ctx app w = first at h
  simp [Init, h, errAlreadyInitialized]

/-- Witness of the amended C2: two calls of `Init` on the serverless configuration, the
first of which succeeds. -/
theorem Init_twice_after_success_witness :
    (Init registerOk (Ctx.root 0) (NewApplicationServer lambdaConfig) World.empty).1 = none ∧
    Init registerFails (Ctx.root 1)
        (Init registerOk (Ctx.root 0) (NewApplicationServer lambdaConfig) World.empty).2.1
        (Init registerOk (Ctx.root 0) (NewApplicationServer lambdaConfig) World.empty).2.2 =
      (some (GoError.plain "application is already initialized"),
        (Init registerOk (Ctx.root 0) (NewApplicationServer lambdaConfig) World.empty).2.1,
        (Init registerOk (Ctx.root 0) (NewApplicationServer lambdaConfig) World.empty).2.2) :=
  ⟨by decide,
    Init_twice_after_success registerOk registerFails (Ctx.root 0) (Ctx.root 1)
      (NewApplicationServer lambdaConfig) World.empty (by decide)⟩

/-! ## The guards of the serve operations -/

/-- `Serve` and `ServeHttp` on an instance that is not initialized return the "not
initialized" error before any goroutine is started. -/
theorem guarded_serve_not_initialized (app : ApplicationServer) (ctx : Ctx)
    (lis : Option Listener) (cancelled : Bool) (h : app.initialized = false) :
    Serve app ctx lis lis cancelled = .fail (.plain "application is not initialized") ∧
    (ServeHttp app ctx lis).init cancelled = refused cancelled := by
  simp [Serve, ServeHttp, ServeCall.init, h, errNotInitialized, refused]

/-- With a nil gRPC server both closures of `ServeGrpc` panic: over any transition the
caller is in the `select` or has panicked, and the goroutine has not started or has
panicked. -/
theorem nil_server_step (app : ApplicationServer) (ctx : Ctx) (lis : Option Listener)
    (hnil : app.grpcServer = none) (ev : Event) (s0 s : SwcState)
    (hmain : s0.main = .selecting ∨ s0.main = .panicked)
    (htask : s0.task = .spawned ∨ s0.task = .panicked)
    (hstep : serveWithContext ctx (grpcServeOp app lis) (grpcStopOp app) ev s0 = some s) :
    (s.main = .selecting ∨ s.main = .panicked) ∧
      (s.task = .spawned ∨ s.task = .panicked) := by
  rcases s0 with ⟨c, m, t, tr⟩
  simp only at hmain htask
  have hstop : ∃ pre, grpcStopOp app ctx = .panic pre := by
    simp [grpcStopOp, hnil]
  have hserve : ∃ pre, grpcServeOp app lis ctx = .panic pre := by
    cases lis <;> simp [grpcServeOp, hnil]
  obtain ⟨p1, hstop⟩ := hstop
  obtain ⟨p2, hserve⟩ := hserve
  rcases hmain with rfl | rfl <;> rcases htask with rfl | rfl <;> cases ev <;>
    simp [serveWithContext, SwcState.crashed, hstop, hserve] at hstep
  all_goals
    first
    | subst hstep
    | obtain ⟨_, rfl⟩ := hstep
  all_goals simp

/-- With a nil gRPC server the caller of `serveWithContext` never returns. -/
theorem nil_server_never_returns (app : ApplicationServer) (ctx : Ctx) (lis : Option Listener)
    (hnil : app.grpcServer = none) (evs : List Event) (s0 s : SwcState)
    (hmain : s0.main = .selecting ∨ s0.main = .panicked)
    (htask : s0.task = .spawned ∨ s0.task = .panicked)
    (hrun : serveWithContextRun ctx (grpcServeOp app lis) (grpcStopOp app) evs s0 = some s) :
    s.main = .selecting ∨ s.main = .panicked := by
  induction evs generalizing s0 with
  | nil =>
    simp only [serveWithContextRun, Option.some.injEq] at hrun
    subst hrun
    exact hmain
  | cons ev rest ih =>
    simp only [serveWithContextRun] at hrun
    cases hstep : serveWithContext ctx (grpcServeOp app lis) (grpcStopOp app) ev s0 with
    | none => simp [hstep] at hrun
    | some s2 =>
      rw [hstep] at hrun
      have h2 := nil_server_step app ctx lis hnil ev s0 s2 hmain htask hstep
      exact ih s2 h2.1 h2.2 hrun

/-- C1 fails for `ServeGrpc`: on a server on which `Init` was never called, `ServeGrpc`
has no guard. Whatever the configuration, the context and the listener, it enters
`serveWithContext`; the goroutine calls `Serve` on the nil gRPC server and panics, and
when the context is done the caller calls `GracefulStop` on the nil server and panics. In
no schedule does the call return a value, so it never returns the "not initialized" error
that `Serve` and `ServeHttp` return on the same instance. -/
theorem ServeGrpc_not_initialized_panics (cfg : Config) (ctx : Ctx) (lis : Listener) :
    (NewApplicationServer cfg).initialized = false ∧
    (ServeGrpc (NewApplicationServer cfg) ctx (some lis)).init false = SwcState.init false ∧
    (ServeGrpc (NewApplicationServer cfg) ctx (some lis)).init false ≠ refused false ∧
    (((ServeGrpc (NewApplicationServer cfg) ctx (some lis)).step .taskStart
        (SwcState.init false)).map SwcState.summary = some (.selecting, .panicked, [])) ∧
    (((ServeGrpc (NewApplicationServer cfg) ctx (some lis)).step .ctxDone
        (SwcState.init true)).map SwcState.summary = some (.panicked, .spawned, [])) ∧
    (∀ evs cancelled s,
      serveWithContextRun ctx (grpcServeOp (NewApplicationServer cfg) (some lis))
        (grpcStopOp (NewApplicationServer cfg)) evs (SwcState.init cancelled) = some s →
      ∀ r, s.main ≠ .returned r) ∧
    Serve (NewApplicationServer cfg) ctx (some lis) (some lis) false = .fail errNotInitialized ∧
    (ServeHttp (NewApplicationServer cfg) ctx (some lis)).init false = refused false := by
  refine ⟨rfl, rfl, ?_, ?_, ?_, ?_, rfl, rfl⟩
  · simp [ServeGrpc, ServeCall.init, SwcState.init, refused]
  · simp [ServeGrpc, ServeCall.step, serveWithContext, SwcState.crashed, SwcState.init,
      grpcServeOp, NewApplicationServer, SwcState.summary, transportCalls, invocation]
  · simp [ServeGrpc, ServeCall.step, serveWithContext, SwcState.crashed, SwcState.init,
      grpcStopOp, NewApplicationServer, SwcState.summary, transportCalls, invocation]
  · intro evs cancelled s hrun r hr
    have h := nil_server_never_returns (NewApplicationServer cfg) ctx (some lis) rfl evs
      (SwcState.init cancelled) s (Or.inl rfl) (Or.inl rfl) hrun
    rw [hr] at h
    rcases h with h1 | h1 <;> cases h1

/-- C7 fails for `ServeGrpc`: when the gateway registration fails with `err`, `Init` on a
fresh server returns the error wrapping `err` and leaves `initialized` false, but the gRPC
server is built already, and a later `ServeGrpc` on that instance starts the serve loop on
the listener, while `Serve` and `ServeHttp` refuse. -/
theorem ServeGrpc_after_failed_Init_serves (cfg : Config) (ctx : Ctx) (w : World)
    (err : GoError) (lis : Listener) :
    (Init (fun _ _ _ => some err) ctx (NewApplicationServer cfg) w).1 =
      some (.wrap ("error registering ping service handler: " ++ err.Error) err) ∧
    (afterFailedInit cfg ctx w err).initialized = false ∧
    (afterFailedInit cfg ctx w err).grpcServer = some w.next ∧
    (ServeGrpc (afterFailedInit cfg ctx w err) ctx (some lis)).init false ≠ refused false ∧
    (((ServeGrpc (afterFailedInit cfg ctx w err) ctx (some lis)).step .taskStart
        (SwcState.init false)).map SwcState.summary =
      some (.selecting, .serving, [Effect.grpcServe w.next lis])) ∧
    Serve (afterFailedInit cfg ctx w err) ctx (some lis) (some lis) false =
      .fail errNotInitialized ∧
    (ServeHttp (afterFailedInit cfg ctx w err) ctx (some lis)).init false = refused false := by
  refine ⟨rfl, rfl, rfl, ?_, ?_, rfl, rfl⟩
  · simp [ServeGrpc, ServeCall.init, SwcState.init, refused]
  · simp [ServeGrpc, ServeCall.step, serveWithContext, SwcState.crashed, SwcState.init,
      grpcServeOp, afterFailedInit, Init, NewApplicationServer, SwcState.summary,
      transportCalls, invocation]

/-! ## `serveWithContext` -/

/-- The invocations of `stop` in a concatenated history. -/
theorem stopContexts_append (xs ys : List Obs) :
    stopContexts (xs ++ ys) = stopContexts xs ++ stopContexts ys := by
  induction xs with
  | nil => rfl
  | cons o rest ih =>
    rcases o with ⟨_ | _, c⟩ | e | ⟨role, r⟩ <;> simp [stopContexts, ih]

/-- The effects of a closure body contain no invocation of `stop`. -/
theorem stopContexts_effects (pre : List Effect) :
    stopContexts (pre.map Obs.effect) = [] := by
  induction pre with
  | nil => rfl
  | cons e rest ih => simp [stopContexts, ih]

/-- The invariant holds when the caller enters the `select`. -/
theorem SwcInv_init (ctx : Ctx) (c : Bool) : SwcInv ctx (SwcState.init c) := by
  simp [SwcInv, SwcState.init, stopInvocations, stopContexts]

/-- Every transition keeps the invariant. -/
theorem SwcInv_step (serve stop : Op) (ctx : Ctx) (ev : Event) (s s1 : SwcState)
    (h : SwcInv ctx s) (hs : serveWithContext ctx serve stop ev s = some s1) : SwcInv ctx s1 := by
  rcases s with ⟨c, m, t, tr⟩
  cases ev <;> cases m <;> cases t <;>
    simp [serveWithContext, SwcState.crashed] at hs
  all_goals (try split at hs)
  all_goals (try simp only [Option.some.injEq, reduceCtorEq] at hs)
  all_goals (try obtain ⟨hc, hs⟩ := hs)
  all_goals (try subst hs)
  all_goals
    simp_all [SwcInv, stopInvocations, invocation, stopContexts_append, stopContexts_effects,
      stopContexts]

/-- Every schedule keeps the invariant. -/
theorem SwcInv_run (serve stop : Op) (ctx : Ctx) (evs : List Event) (s s1 : SwcState)
    (h : SwcInv ctx s) (hs : serveWithContextRun ctx serve stop evs s = some s1) :
    SwcInv ctx s1 := by
  induction evs generalizing s with
  | nil =>
    simp only [serveWithContextRun, Option.some.injEq] at hs
    exact hs ▸ h
  | cons ev rest ih =>
    simp only [serveWithContextRun] at hs
    cases hstep : serveWithContext ctx serve stop ev s with
    | none => simp [hstep] at hs
    | some s2 =>
      rw [hstep] at hs
      exact ih s2 (SwcInv_step serve stop ctx ev s s2 h hstep) hs

/-- C3: in every schedule of `serveWithContext(ctx, serve, stop)`, whatever `serve` and
`stop` are and whether or not `ctx` is done at the call, a value `r` returned to the
caller is of exactly one of two kinds. Either it was received from the channel: `serve`
returned it and `stop` was never invoked. Or the cancellation branch was taken: `ctx` is
done, `stop` was invoked exactly once, with `ctx`, it returned `r`, and nothing was
received from the channel. Both ways are open: while the caller waits, a result offered by
the goroutine can be received and is then returned, and once `ctx` is done `stop` can be
invoked and what it returns is returned. -/
theorem serveWithContext_result (serve stop : Op) (ctx : Ctx) (cancelled : Bool)
    (evs : List Event) (s : SwcState)
    (hrun : serveWithContextRun ctx serve stop evs (SwcState.init cancelled) = some s) :
    (∀ r, s.main = .returned r →
      (stopInvocations s = [] ∧ s.task = .finished ∧ Obs.result .serve r ∈ s.trace) ∨
      (stopInvocations s = [ctx] ∧ s.task ≠ .finished ∧ Obs.result .stop r ∈ s.trace ∧
        s.cancelled = true)) ∧
    (∀ e, s.main = .selecting → s.task = .sending e →
      ∃ s1, serveWithContext ctx serve stop .recv s = some s1 ∧ s1.main = .returned e ∧
        stopInvocations s1 = []) ∧
    (∀ pre ret x, s.main = .selecting → s.cancelled = true → s.task ≠ .panicked →
      stop ctx = .call pre ret →
      ∃ s2, serveWithContextRun ctx serve stop [.ctxDone, .stopReturns x] s = some s2 ∧
        s2.main = .returned (ret x) ∧ stopInvocations s2 = [ctx]) := by
  have hinv := SwcInv_run serve stop ctx evs _ s (SwcInv_init ctx cancelled) hrun
  unfold SwcInv at hinv
  refine ⟨?_, ?_, ?_⟩
  · intro r hret
    rw [hret] at hinv
    exact hinv.2
  · intro e hm ht
    rw [hm] at hinv
    rcases s with ⟨c, m, t, tr⟩
    simp only at hm ht
    subst hm ht
    simp only at hinv
    exact ⟨{ cancelled := c, main := .returned e, task := .finished, trace := tr },
      by simp [serveWithContext, SwcState.crashed], rfl, hinv.2.1⟩
  · intro pre ret x hm hc ht hstop
    rw [hm] at hinv
    rcases s with ⟨c, m, t, tr⟩
    simp only at hm hc ht
    subst hm hc
    simp only at hinv
    have hinv2 : stopContexts tr = [] := hinv.2.1
    cases t <;>
      simp [serveWithContextRun, serveWithContext, SwcState.crashed, hstop, stopInvocations,
        invocation,
        stopContexts_append, stopContexts_effects, stopContexts, hinv2] at ht ⊢

/-- Witness of C3: the gRPC loop of an initialized server whose context is cancelled
while it serves; the caller stops the server and returns nil. -/
theorem serveWithContext_result_witness :
    serveWithContextRun (Ctx.root 0) (grpcServeOp initializedApp (some sockListener))
        (grpcStopOp initializedApp) [.taskStart, .cancel, .ctxDone, .stopReturns none]
        (SwcState.init false) =
      some stoppedGrpc ∧
    stoppedGrpc.main = .returned none ∧
    ((∀ r, stoppedGrpc.main = .returned r →
      (stopInvocations stoppedGrpc = [] ∧ stoppedGrpc.task = .finished ∧
        Obs.result .serve r ∈ stoppedGrpc.trace) ∨
      (stopInvocations stoppedGrpc = [Ctx.root 0] ∧ stoppedGrpc.task ≠ .finished ∧
        Obs.result .stop r ∈ stoppedGrpc.trace ∧ stoppedGrpc.cancelled = true)) ∧
    (∀ e, stoppedGrpc.main = .selecting → stoppedGrpc.task = .sending e →
      ∃ s1, serveWithContext (Ctx.root 0) (grpcServeOp initializedApp (some sockListener))
          (grpcStopOp initializedApp) .recv stoppedGrpc = some s1 ∧ s1.main = .returned e ∧
        stopInvocations s1 = []) ∧
    (∀ pre ret x, stoppedGrpc.main = .selecting → stoppedGrpc.cancelled = true →
      stoppedGrpc.task ≠ .panicked →
      grpcStopOp initializedApp (Ctx.root 0) = .call pre ret →
      ∃ s2, serveWithContextRun (Ctx.root 0) (grpcServeOp initializedApp (some sockListener))
          (grpcStopOp initializedApp) [.ctxDone, .stopReturns x] stoppedGrpc = some s2 ∧
        s2.main = .returned (ret x) ∧ stopInvocations s2 = [Ctx.root 0])) :=
  ⟨by decide, rfl,
    serveWithContext_result (grpcServeOp initializedApp (some sockListener))
      (grpcStopOp initializedApp) (Ctx.root 0) false
      [.taskStart, .cancel, .ctxDone, .stopReturns none] stoppedGrpc (by decide)⟩

/-- Once the caller has left the `select`, a goroutine blocked on the send stays blocked
over any transition: nobody receives from the unbuffered channel. -/
theorem sender_blocked_step (serve stop : Op) (ctx : Ctx) (ev : Event) (s s1 : SwcState)
    (e : Option GoError) (hmain : s.main ≠ .selecting) (htask : s.task = .sending e)
    (hs : serveWithContext ctx serve stop ev s = some s1) :
    s1.main ≠ .selecting ∧ s1.task = .sending e := by
  rcases s with ⟨c, m, t, tr⟩
  simp only at hmain htask
  subst htask
  cases ev <;> cases m <;> simp [serveWithContext, SwcState.crashed] at hs hmain
  all_goals (try split at hs)
  all_goals (try simp only [Option.some.injEq, reduceCtorEq] at hs)
  all_goals (try subst hs)
  all_goals simp_all

/-- C9 fails: in every state in which the caller has left the `select` (it took the
cancellation branch) and the goroutine has reached the send of the result of `serve`, the
goroutine stays blocked on that send in every continuation and never terminates, because
the channel is unbuffered and its only receiver is gone. -/
theorem serveWithContext_sender_blocks_forever (serve stop : Op) (ctx : Ctx)
    (evs : List Event) (s s1 : SwcState) (e : Option GoError)
    (hmain : s.main ≠ .selecting) (htask : s.task = .sending e)
    (hrun : serveWithContextRun ctx serve stop evs s = some s1) :
    s1.task = .sending e ∧ s1.task ≠ .finished := by
  induction evs generalizing s with
  | nil =>
    simp only [serveWithContextRun, Option.some.injEq] at hrun
    subst hrun
    simp [htask]
  | cons ev rest ih =>
    simp only [serveWithContextRun] at hrun
    cases hstep : serveWithContext ctx serve stop ev s with
    | none => simp [hstep] at hrun
    | some s2 =>
      rw [hstep] at hrun
      have h2 := sender_blocked_step serve stop ctx ev s s2 e hmain htask hstep
      exact ih s2 h2.1 h2.2 hrun

/-- Witness of the failure of C9: the gRPC loop of an initialized server. The context is
cancelled while the server serves, the caller runs `GracefulStop` and returns nil, then
`Serve` returns nil in the goroutine, which blocks on the send; the receive is not
enabled and the goroutine is still blocked after further events. -/
theorem serveWithContext_sender_blocks_forever_witness :
    serveWithContextRun (Ctx.root 0) (grpcServeOp initializedApp (some sockListener))
        (grpcStopOp initializedApp)
        [.taskStart, .cancel, .ctxDone, .stopReturns none, .serveReturns none]
        (SwcState.init false) = some leakedGrpc ∧
    serveWithContext (Ctx.root 0) (grpcServeOp initializedApp (some sockListener))
        (grpcStopOp initializedApp) .recv leakedGrpc = none ∧
    leakedGrpc.main ≠ .selecting ∧ leakedGrpc.task = .sending none ∧
    (leakedGrpc.task = .sending none ∧ leakedGrpc.task ≠ .finished) :=
  ⟨by decide, by decide, by decide, rfl,
    serveWithContext_sender_blocks_forever (grpcServeOp initializedApp (some sockListener))
      (grpcStopOp initializedApp) (Ctx.root 0) [.cancel, .cancel] leakedGrpc leakedGrpc none
      (by decide) rfl (by decide)⟩

/-! ## `Serve` -/

/-- The first error after one more returned value. -/
theorem firstError_append (cs : List (Kind × Option GoError)) (k : Kind) (r : Option GoError) :
    firstError (cs ++ [(k, r)]) =
      match firstError cs with
      | some e => some e
      | none => r := by
  induction cs with
  | nil => cases r <;> simp [firstError]
  | cons c rest ih =>
    rcases c with ⟨k1, _ | e⟩
    · simpa [firstError] using ih
    · simp [firstError]

/-- The value a loop has returned is read off its caller. -/
theorem returnedValue_some (s : SwcState) :
    returnedValue (some s) = match s.main with
      | .returned r => some r
      | _ => none := by
  rcases s with ⟨c, m, t, tr⟩
  cases m <;> rfl

/-- A caller that has returned stays returned. -/
theorem step_returned_stable (serve stop : Op) (ctx : Ctx) (ev : Event) (s s1 : SwcState)
    (r : Option GoError) (hm : s.main = .returned r)
    (hs : serveWithContext ctx serve stop ev s = some s1) : s1.main = .returned r := by
  rcases s with ⟨c, m, t, tr⟩
  simp only at hm
  subst hm
  cases ev <;> cases t <;> simp [serveWithContext, SwcState.crashed] at hs
  all_goals (try split at hs)
  all_goals (try simp only [Option.some.injEq, reduceCtorEq] at hs)
  all_goals (try subst hs)
  all_goals simp_all

/-- A call of `ServeGrpc` or `ServeHttp` that has returned stays returned. -/
theorem serveCall_returned_stable (c : ServeCall) (ev : Event) (s s1 : SwcState)
    (r : Option GoError) (hm : s.main = .returned r)
    (hs : c.step ev s = some s1) : s1.main = .returned r := by
  cases c with
  | fail e =>
    cases ev <;> simp [ServeCall.step] at hs
    subst hs
    exact hm
  | race ctx serve stop =>
    exact step_returned_stable serve stop ctx ev s s1 r hm hs

/-- The fields of the group after it received one returned value. -/
theorem groupDone_fields (k : Kind) (r : Option GoError) (st : ServeState) :
    (groupDone k r st).completions = st.completions ++ [(k, r)] ∧
    (groupDone k r st).grpc = st.grpc ∧
    (groupDone k r st).http = st.http ∧
    (groupDone k r st).result = st.result ∧
    (groupDone k r st).err = (match st.err with
      | some e => some e
      | none => r) ∧
    (groupDone k r st).cancelled = (st.cancelled || (st.err.isNone && r.isSome)) := by
  unfold groupDone
  cases r <;> cases hst : st.err <;> simp [hst]

/-- Replacing a loop by a state with the same returned value keeps the invariant. -/
theorem ServeInv_set_same (k : Kind) (after : SwcState) (st : ServeState) (h : ServeInv st)
    (hsame : returnedValue (some after) = returnedValue (st.get k)) :
    ServeInv (st.set k after) := by
  cases k with
  | grpc =>
    simp only [ServeState.get] at hsame
    refine ⟨h.err_eq, h.cancelled_of_err, ?_, h.nodup, ?_⟩
    · intro k r
      cases k with
      | grpc => simpa [ServeState.set, ServeState.get, hsame] using h.mem_iff .grpc r
      | http => simpa [ServeState.set, ServeState.get] using h.mem_iff .http r
    · intro r hr
      have := h.result_ok r hr
      simpa [ServeState.set, hsame] using this
  | http =>
    simp only [ServeState.get] at hsame
    refine ⟨h.err_eq, h.cancelled_of_err, ?_, h.nodup, ?_⟩
    · intro k r
      cases k with
      | grpc => simpa [ServeState.set, ServeState.get] using h.mem_iff .grpc r
      | http => simpa [ServeState.set, ServeState.get, hsame] using h.mem_iff .http r
    · intro r hr
      have := h.result_ok r hr
      simpa [ServeState.set, hsame] using this

/-- A loop that returns for the first time is received by the group; the invariant is
kept. -/
theorem ServeInv_set_done (k : Kind) (after : SwcState) (r : Option GoError) (st : ServeState)
    (h : ServeInv st) (hnone : returnedValue (st.get k) = none)
    (hafter : after.main = .returned r) :
    ServeInv (groupDone k r (st.set k after)) := by
  have hrv : returnedValue (some after) = some r := by
    rw [returnedValue_some, hafter]
  have hnotin : ∀ r1, (k, r1) ∉ st.completions := by
    intro r1 hmem
    have := (h.mem_iff k r1).1 hmem
    rw [hnone] at this
    cases this
  have hres : st.result = none := by
    cases hr : st.result with
    | none => rfl
    | some r1 =>
      have := h.result_ok r1 hr
      cases k with
      | grpc => simp [ServeState.get] at hnone; simp [hnone] at this
      | http => simp [ServeState.get] at hnone; simp [hnone] at this
  obtain ⟨hc, hg, hh, hr, he, hcan⟩ := groupDone_fields k r (st.set k after)
  have hset : (st.set k after).completions = st.completions ∧ (st.set k after).err = st.err ∧
      (st.set k after).cancelled = st.cancelled ∧ (st.set k after).result = st.result := by
    cases k <;> simp [ServeState.set]
  obtain ⟨hsc, hse, hscan, hsr⟩ := hset
  rw [hsc] at hc
  rw [hse] at he hcan
  rw [hscan] at hcan
  rw [hsr] at hr
  refine ⟨?_, ?_, ?_, ?_, ?_⟩
  · rw [he, hc, firstError_append, ← h.err_eq]
  · intro hne
    rw [hcan]
    rw [he] at hne
    cases hst : st.err with
    | none =>
      rw [hst] at hne
      cases r with
      | none => exact absurd rfl hne
      | some e => simp
    | some e0 =>
      have := h.cancelled_of_err (by simp [hst])
      simp [this]
  · intro k1 r1
    rw [hc, List.mem_append]
    by_cases hk : k1 = k
    · subst hk
      have hget : (groupDone k1 r (st.set k1 after)).get k1 = some after := by
        cases k1
        · show (groupDone _ _ _).grpc = _
          rw [hg]
          rfl
        · show (groupDone _ _ _).http = _
          rw [hh]
          rfl
      rw [hget, hrv]
      constructor
      · rintro (hmem | hmem)
        · exact absurd hmem (hnotin r1)
        · simp only [List.mem_singleton, Prod.mk.injEq, true_and] at hmem
          rw [hmem]
      · intro heq
        right
        simp only [Option.some.injEq] at heq
        simp [heq]
    · have hget : (groupDone k r (st.set k after)).get k1 = st.get k1 := by
        cases k1 <;> cases k <;> simp_all [ServeState.get, ServeState.set]
      rw [hget, ← h.mem_iff k1 r1]
      constructor
      · rintro (hmem | hmem)
        · exact hmem
        · simp only [List.mem_singleton, Prod.mk.injEq] at hmem
          exact absurd hmem.1 hk
      · intro hmem
        exact Or.inl hmem
  · rw [hc, List.map_append, List.nodup_append]
    refine ⟨h.nodup, by simp, ?_⟩
    intro a ha hb
    simp only [List.map_cons, List.map_nil, List.mem_singleton] at hb
    subst hb
    rw [List.mem_map] at ha
    obtain ⟨⟨k2, r2⟩, hmem, hk2⟩ := ha
    simp only at hk2
    subst hk2
    exact hnotin r2 hmem
  · intro r1 hr1
    rw [hr, hres] at hr1
    cases hr1

/-- Storing the new state of a loop keeps the invariant, provided a loop that had
returned still has. -/
theorem ServeInv_settle (k : Kind) (before : Option SwcState) (after : SwcState)
    (st : ServeState) (h : ServeInv st) (hb : st.get k = before)
    (hstable : ∀ r, returnedValue before = some r → after.main = .returned r) :
    ServeInv (settle k before after st) := by
  unfold settle
  cases hrv : returnedValue before with
  | some r0 =>
    simp only
    apply ServeInv_set_same k after st h
    rw [returnedValue_some, hstable r0 hrv, hb, hrv]
  | none =>
    cases hm : after.main with
    | returned r =>
      simp only
      exact ServeInv_set_done k after r st h (by rw [hb, hrv]) hm
    | selecting =>
      simp only
      apply ServeInv_set_same k after st h
      rw [returnedValue_some, hm, hb, hrv]
    | stopping =>
      simp only
      apply ServeInv_set_same k after st h
      rw [returnedValue_some, hm, hb, hrv]
    | panicked =>
      simp only
      apply ServeInv_set_same k after st h
      rw [returnedValue_some, hm, hb, hrv]

/-- Every transition of `Serve` keeps the invariant. -/
theorem ServeInv_step (calls : Kind → ServeCall) (ev : ServeEvent) (st st1 : ServeState)
    (h : ServeInv st) (hs : serveStep calls ev st = some st1) :
    ServeInv st1 := by
  unfold serveStep at hs
  split at hs
  · cases hs
  · cases ev with
    | cancel =>
      simp only [Option.some.injEq] at hs
      subst hs
      exact ⟨h.err_eq, fun _ => rfl, h.mem_iff, h.nodup, h.result_ok⟩
    | start k =>
      simp only at hs
      cases hget : st.get k with
      | some s => simp [hget] at hs
      | none =>
        simp only [hget, Option.some.injEq] at hs
        subst hs
        exact ServeInv_settle k none _ st h hget (by intro r hr; cases hr)
    | loop k ev =>
      simp only at hs
      cases hget : st.get k with
      | none => simp [hget] at hs
      | some s =>
        rw [hget] at hs
        cases ev with
        | cancel => simp at hs
        | taskStart | serveReturns x | recv | ctxDone | stopReturns x =>
          simp only at hs
          split at hs
          · cases hs
          · rename_i s1 hstep
            simp only [Option.some.injEq] at hs
            subst hs
            refine ServeInv_settle k (some s) s1 st h hget ?_
            intro r hr
            refine serveCall_returned_stable _ _ _ s1 r ?_ hstep
            rw [returnedValue_some] at hr
            rcases s with ⟨c, m, t, tr⟩
            cases m <;> simp_all
    | wait =>
      simp only at hs
      split at hs
      · rename_i hres hg hh
        simp only [Option.some.injEq] at hs
        subst hs
        refine ⟨h.err_eq, fun _ => rfl, h.mem_iff, h.nodup, ?_⟩
        intro r hr
        simp only [Option.some.injEq] at hr
        exact ⟨hr.symm, by simp [hg], by simp [hh]⟩
      · cases hs

/-- Every schedule of `Serve` keeps the invariant. -/
theorem ServeInv_run (calls : Kind → ServeCall) (evs : List ServeEvent) (st st1 : ServeState)
    (h : ServeInv st) (hs : serveRun calls evs st = some st1) :
    ServeInv st1 := by
  induction evs generalizing st with
  | nil =>
    simp only [serveRun, Option.some.injEq] at hs
    exact hs ▸ h
  | cons ev rest ih =>
    simp only [serveRun] at hs
    cases hstep : serveStep calls ev st with
    | none => simp [hstep] at hs
    | some st2 =>
      rw [hstep] at hs
      exact ih st2 (ServeInv_step calls ev st st2 h hstep) hs

/-- The invariant holds when `Serve` has passed its guard. -/
theorem ServeInv_start (app : ApplicationServer) (ctx : Ctx)
    (grpcListener httpListener : Option Listener) (cancelled : Bool)
    (calls : Kind → ServeCall) (st0 : ServeState)
    (hstart : Serve app ctx grpcListener httpListener cancelled = .group calls st0) :
    ServeInv st0 := by
  unfold Serve at hstart
  split at hstart
  · cases hstart
  · simp only [ServeStart.group.injEq] at hstart
    obtain ⟨_, hstart⟩ := hstart
    subst hstart
    refine ⟨rfl, by simp, ?_, by simp, by simp⟩
    intro k r
    cases k <;> simp [ServeState.get, returnedValue]

/-- A history with one entry per loop, both loops present, is one of the two orders. -/
theorem completions_both (cs : List (Kind × Option GoError)) (rg rh : Option GoError)
    (hnd : (cs.map Prod.fst).Nodup) (hg : (Kind.grpc, rg) ∈ cs) (hh : (Kind.http, rh) ∈ cs) :
    cs = [(.grpc, rg), (.http, rh)] ∨ cs = [(.http, rh), (.grpc, rg)] := by
  match cs, hnd, hg, hh with
  | [], _, hg, _ => simp at hg
  | [c1], _, hg, hh =>
    simp only [List.mem_singleton] at hg hh
    rw [← hg] at hh
    simp at hh
  | [(k1, r1), (k2, r2)], hnd, hg, hh =>
    simp only [List.map_cons, List.map_nil, List.nodup_cons, List.mem_singleton,
      List.not_mem_nil, not_false_eq_true, List.nodup_nil, and_true] at hnd
    simp only [List.mem_cons, Prod.mk.injEq, List.mem_singleton, List.not_mem_nil,
      or_false] at hg hh
    cases k1 <;> cases k2 <;> simp_all
  | (k1, r1) :: (k2, r2) :: (k3, r3) :: rest, hnd, _, _ =>
    simp only [List.map_cons, List.nodup_cons, List.mem_cons, not_or] at hnd
    cases k1 <;> cases k2 <;> cases k3 <;> simp_all

/-- C4: in every schedule of `Serve` on an initialized server, a value returned by
`Serve` is returned only after both loops have returned, and it is the first non-nil
error among the two returned values in the order in which the loops completed, nil when
both are nil. At any time the values the group has received are exactly those of the
loops that have returned, and as soon as one of them is a non-nil error the context shared
by the loops is cancelled. Once both loops have returned and the process is alive,
`g.Wait()` returns that value. -/
theorem Serve_result (app : ApplicationServer) (ctx : Ctx)
    (grpcListener httpListener : Option Listener) (cancelled : Bool)
    (evs : List ServeEvent) (calls : Kind → ServeCall) (st0 st : ServeState)
    (hstart : Serve app ctx grpcListener httpListener cancelled = .group calls st0)
    (hrun : serveRun calls evs st0 = some st) :
    (∀ r, st.result = some r →
      (∃ rg rh, returnedValue st.grpc = some rg ∧ returnedValue st.http = some rh ∧
        (st.completions = [(.grpc, rg), (.http, rh)] ∨
         st.completions = [(.http, rh), (.grpc, rg)])) ∧
      r = firstError st.completions) ∧
    (∀ k r, (k, r) ∈ st.completions ↔ returnedValue (st.get k) = some r) ∧
    (∀ e, firstError st.completions = some e → st.cancelled = true) ∧
    (st.crashed = false → st.result = none →
      (returnedValue st.grpc).isSome = true → (returnedValue st.http).isSome = true →
      ∃ st1, serveStep calls .wait st = some st1 ∧
        st1.result = some (firstError st.completions)) := by
  have hinv := ServeInv_run calls evs st0 st
    (ServeInv_start app ctx grpcListener httpListener cancelled calls st0 hstart) hrun
  refine ⟨?_, hinv.mem_iff, ?_, ?_⟩
  · intro r hr
    obtain ⟨hre, hg, hh⟩ := hinv.result_ok r hr
    rw [Option.isSome_iff_exists] at hg hh
    obtain ⟨rg, hg⟩ := hg
    obtain ⟨rh, hh⟩ := hh
    refine ⟨⟨rg, rh, hg, hh, ?_⟩, by rw [hre, hinv.err_eq]⟩
    exact completions_both st.completions rg rh hinv.nodup
      ((hinv.mem_iff .grpc rg).2 hg) ((hinv.mem_iff .http rh).2 hh)
  · intro e he
    apply hinv.cancelled_of_err
    rw [hinv.err_eq, he]
    simp
  · intro hcr hres hg hh
    rw [Option.isSome_iff_exists] at hg hh
    obtain ⟨rg, hg⟩ := hg
    obtain ⟨rh, hh⟩ := hh
    refine ⟨{ st with result := some st.err, cancelled := true }, ?_, ?_⟩
    · simp [serveStep, hcr, hres, hg, hh]
    · simp [hinv.err_eq]

/-- Witness of C4: on the initialized serverless server the HTTP loop fails while the
gRPC loop serves, and `Serve` returns the error of the HTTP loop. -/
theorem Serve_result_witness :
    Serve initializedApp (Ctx.root 0) (some sockListener) (some httpListener8080) false =
      .group (loopCall initializedApp (Ctx.root 0) (some sockListener) (some httpListener8080))
        serveStart ∧
    serveRun (loopCall initializedApp (Ctx.root 0) (some sockListener) (some httpListener8080))
      failingHttpSchedule serveStart = some failingHttpFinal ∧
    failingHttpFinal.result = some (some (.plain "use of closed network connection")) ∧
    ((∀ r, failingHttpFinal.result = some r →
      (∃ rg rh, returnedValue failingHttpFinal.grpc = some rg ∧
        returnedValue failingHttpFinal.http = some rh ∧
        (failingHttpFinal.completions = [(.grpc, rg), (.http, rh)] ∨
         failingHttpFinal.completions = [(.http, rh), (.grpc, rg)])) ∧
      r = firstError failingHttpFinal.completions) ∧
    (∀ k r, (k, r) ∈ failingHttpFinal.completions ↔
      returnedValue (failingHttpFinal.get k) = some r) ∧
    (∀ e, firstError failingHttpFinal.completions = some e →
      failingHttpFinal.cancelled = true) ∧
    (failingHttpFinal.crashed = false → failingHttpFinal.result = none →
      (returnedValue failingHttpFinal.grpc).isSome = true →
      (returnedValue failingHttpFinal.http).isSome = true →
      ∃ st1, serveStep
          (loopCall initializedApp (Ctx.root 0) (some sockListener) (some httpListener8080))
          .wait failingHttpFinal = some st1 ∧
        st1.result = some (firstError failingHttpFinal.completions))) :=
  ⟨rfl, by decide, rfl,
    Serve_result initializedApp (Ctx.root 0) (some sockListener) (some httpListener8080) false
      failingHttpSchedule
      (loopCall initializedApp (Ctx.root 0) (some sockListener) (some httpListener8080))
      serveStart failingHttpFinal rfl (by decide)⟩

end LambdaGrpcGateway
